import Mathlib

/-
  Verification of the intake transformation pipeline of ctk-api.

  The definitions below are shallow embeddings of the Python source under
  src/src/ctk_api/routers/file_conversion/intake/ (descriptors.py,
  transformers.py, utils.py, writer.py).  Python strings are modelled by
  Lean `String` (or `List Char` where index arithmetic matters); the model
  of Python text operations is ASCII-faithful (the intake pipeline only
  manipulates ASCII template text).  Fallible Python code (raise) is
  modelled with `Except`.
-/

namespace Ctk

/-- Python exceptions raised by the intake pipeline. -/
inductive PyErr
  | httpException (status : Nat) (detail : String)
  | valueError (detail : String)
  deriving DecidableEq, Repr

/-! ## Python string primitives (ASCII model) -/

/-- Model of Python `str.lower()` (ASCII model; the pipeline only compares
ASCII keywords such as "weeks", "not yet", "early"). -/
def pyLower (s : String) : String :=
  ⟨s.data.map Char.toLower⟩

/-- Model of Python `str.isnumeric()` (ASCII model: non-empty and all
decimal digits; the survey values compared here are ASCII). -/
def pyIsNumeric (s : String) : Bool :=
  !s.data.isEmpty && s.data.all Char.isDigit

/-- Worker for `pySplitWs`: skip whitespace, take the next maximal
non-whitespace word, repeat.  `fuel` bounds the recursion; it is called
with `fuel = length + 1`, which suffices because every step consumes at
least one character. -/
def splitWsAux : Nat → List Char → List (List Char)
  | 0, _ => []
  | _ + 1, [] => []
  | fuel + 1, c :: rest =>
    if c.isWhitespace then splitWsAux fuel rest
    else
      (c :: rest.takeWhile (fun d => !d.isWhitespace)) ::
        splitWsAux fuel (rest.dropWhile (fun d => !d.isWhitespace))

/-- Model of Python `str.split()` with no separator: split on runs of
whitespace, discarding empty parts. -/
def pySplitWs (s : String) : List String :=
  (splitWsAux (s.data.length + 1) s.data).map fun l => ⟨l⟩

/-- Model of Python `str.strip()`: remove leading and trailing whitespace. -/
def pyStrip (s : String) : String := s.trim

/-- One step of Python `str.replace(find, rep)` for a non-empty `find`:
leftmost-first, non-overlapping.  `fuel` bounds recursion; it is called
with `fuel = hay.length + 1` which suffices for non-empty `find`. -/
def pyReplaceAux (find rep : List Char) : Nat → List Char → List Char
  | 0, hay => hay
  | Nat.succ fuel, hay =>
    match hay with
    | [] => []
    | c :: rest =>
      if find.isPrefixOf (c :: rest) && !find.isEmpty then
        rep ++ pyReplaceAux find rep fuel ((c :: rest).drop find.length)
      else
        c :: pyReplaceAux find rep fuel rest

/-- Model of Python `str.replace(find, rep)` on character lists.  For an
empty `find`, Python inserts `rep` at every character boundary. -/
def pyReplaceList (hay find rep : List Char) : List Char :=
  if find.isEmpty then
    rep ++ (hay.flatMap fun c => c :: rep)
  else
    pyReplaceAux find rep (hay.length + 1) hay

/-- Model of Python `str.replace(find, rep)` on `String`. -/
def pyReplaceStr (hay find rep : String) : String :=
  ⟨pyReplaceList hay.data find.data rep.data⟩

/-- Model of the Python `in` substring test (`find in text`). -/
def strContainsSub (hay pat : List Char) : Bool :=
  (List.range (hay.length + 1)).any fun i => pat.isPrefixOf (hay.drop i)

/-- Model of Python `" ".join(text.split())`, the body of
`ReportWriter._remove_excess_whitespace`. -/
def removeExcessWhitespace (s : String) : String :=
  String.intercalate " " (pySplitWs s)

/-! ## utils.py -/

/-- `utils.join_with_oxford_comma`: joins a list of items with an Oxford
comma, translated clause by clause from the source. -/
def joinWithOxfordComma (items : List String) : String :=
  if items.length = 0 then
    ""
  else if items.length = 1 then
    items.headD ""
  else if items.length = 2 then
    items.headD "" ++ " and " ++ items.getD 1 ""
  else
    String.intercalate ", " items.dropLast ++ ", and " ++ items.getLastD ""

/-- `utils.ordinal_suffix` after the `int(number)` conversion.  Python `%`
on a positive modulus agrees with `Int.emod`. -/
def ordinalSuffix (number : Int) : String :=
  let lastTwoDigits := number % 100
  if 11 ≤ lastTwoDigits ∧ lastTwoDigits ≤ 13 then
    "th"
  else
    let lastDigit := number % 10
    if lastDigit = 1 then "st"
    else if lastDigit = 2 then "nd"
    else if lastDigit = 3 then "rd"
    else "th"

/-- The ordinal-suffix rule as the claim words it, for non-negative `n`:
"th" whenever the last two digits are in 11..13, otherwise by last digit. -/
def ordinalSuffixSpec (n : Nat) : String :=
  if 11 ≤ n % 100 ∧ n % 100 ≤ 13 then "th"
  else if n % 10 = 1 then "st"
  else if n % 10 = 2 then "nd"
  else if n % 10 = 3 then "rd"
  else "th"

/-! ## descriptors.py -/

/-- `descriptors.Handedness`. -/
inductive HandednessV
  | left | right | unknown
  deriving DecidableEq, Repr

/-- `descriptors.IndividualizedEducationProgram` (`no = 0`, `yes = 1`). -/
inductive IEPV
  | no | yes
  deriving DecidableEq, Repr

/-- `descriptors.BirthDelivery`. -/
inductive BirthDeliveryV
  | vaginal | cesarean | unknown
  deriving DecidableEq, Repr

/-- `descriptors.DeliveryLocation`. -/
inductive DeliveryLocationV
  | hospital | home | other
  deriving DecidableEq, Repr

/-- `descriptors.Adaptability`. -/
inductive AdaptabilityV
  | easy | difficult
  deriving DecidableEq, Repr

/-- `descriptors.BirthComplications`: the 20 integer-coded complication
values (codes 1..20 in declaration order). -/
inductive BirthComplicationV
  | spotting_or_vaginal_bleeding
  | emotional_problems
  | threatened_miscarriage
  | diabetes
  | high_blood_pressure
  | pre_term_labor
  | kidney_disease
  | took_any_prescriptions
  | drug_use
  | alcohol_use
  | tobacco_use
  | swollen_ankles
  | placenta_previa
  | family_stress
  | rh_or_other_incompatibilities
  | flu_or_virus
  | accident_or_injury
  | bedrest
  | other_illnesses
  | none_of_the_above
  deriving DecidableEq, Repr

/-- The `.name` attribute of a `BirthComplications` member. -/
def bcName : BirthComplicationV → String
  | .spotting_or_vaginal_bleeding => "spotting_or_vaginal_bleeding"
  | .emotional_problems => "emotional_problems"
  | .threatened_miscarriage => "threatened_miscarriage"
  | .diabetes => "diabetes"
  | .high_blood_pressure => "high_blood_pressure"
  | .pre_term_labor => "pre_term_labor"
  | .kidney_disease => "kidney_disease"
  | .took_any_prescriptions => "took_any_prescriptions"
  | .drug_use => "drug_use"
  | .alcohol_use => "alcohol_use"
  | .tobacco_use => "tobacco_use"
  | .swollen_ankles => "swollen_ankles"
  | .placenta_previa => "placenta_previa"
  | .family_stress => "family_stress"
  | .rh_or_other_incompatibilities => "rh_or_other_incompatibilities"
  | .flu_or_virus => "flu_or_virus"
  | .accident_or_injury => "accident_or_injury"
  | .bedrest => "bedrest"
  | .other_illnesses => "other_illnesses"
  | .none_of_the_above => "none_of_the_above"

/-- `descriptors.BirthComplications(val)`: decode an integer code; an
undeclared code raises `ValueError`. -/
def bcOfCode (n : Nat) : Except PyErr BirthComplicationV :=
  match n with
  | 1 => .ok .spotting_or_vaginal_bleeding
  | 2 => .ok .emotional_problems
  | 3 => .ok .threatened_miscarriage
  | 4 => .ok .diabetes
  | 5 => .ok .high_blood_pressure
  | 6 => .ok .pre_term_labor
  | 7 => .ok .kidney_disease
  | 8 => .ok .took_any_prescriptions
  | 9 => .ok .drug_use
  | 10 => .ok .alcohol_use
  | 11 => .ok .tobacco_use
  | 12 => .ok .swollen_ankles
  | 13 => .ok .placenta_previa
  | 14 => .ok .family_stress
  | 15 => .ok .rh_or_other_incompatibilities
  | 16 => .ok .flu_or_virus
  | 17 => .ok .accident_or_injury
  | 18 => .ok .bedrest
  | 19 => .ok .other_illnesses
  | 20 => .ok .none_of_the_above
  | _ => .error (.valueError (toString n ++ " is not a valid BirthComplications"))

/-- `descriptors.PastDiagnosis` (fields `diagnosis`, `clinician`, `age`). -/
structure PastDiagnosisV where
  diagnosis : String
  clinician : String
  age : String
  deriving DecidableEq, Repr

/-! ## transformers.py -/

/-- The state a `Transformer`/`MultiTransformer` holds after
`__init__(value, other=None)`: the `base` value and the optional freeform
`other` string. -/
structure TState (α : Type) where
  base : α
  other : Option String
  deriving DecidableEq, Repr

/-- `transformers.PastSchoolInterface`. -/
structure PastSchoolInterface where
  name : String
  grades : String
  deriving DecidableEq, Repr

/-- The list comprehension
`[descriptors.BirthComplications(val) for val in value]` in
`BirthComplications.__init__`: decodes each code, propagating the first
`ValueError`. -/
def bcDecodeList : List Nat → Except PyErr (List BirthComplicationV)
  | [] => .ok []
  | c :: rest =>
    match bcOfCode c with
    | .error e => .error e
    | .ok v =>
      match bcDecodeList rest with
      | .error e => .error e
      | .ok vs => .ok (v :: vs)

/-- `transformers.BirthComplications.__init__(value, other)`: decode the
codes, then reject "none of the above" combined with anything else with an
HTTP 400 error. -/
def mkBirthComplications (value : List Nat) (other : Option String) :
    Except PyErr (TState (List BirthComplicationV)) :=
  match bcDecodeList value with
  | .error e => .error e
  | .ok base =>
    if BirthComplicationV.none_of_the_above ∈ base ∧ 1 < base.length then
      .error (.httpException 400
        ("Birth complications \x27none of the above\x27 cannot be combined " ++
          "with other birth complications."))
    else
      .ok ⟨base, other⟩

/-- The `names` accumulation loop of `BirthComplications.transform`: an
`other_illnesses` entry uses `self.other`, raising HTTP 400 when it is
`None`; any other entry contributes `val.name` with underscores replaced
by spaces. -/
def bcNames : List BirthComplicationV → Option String → Except PyErr (List String)
  | [], _ => .ok []
  | v :: rest, other =>
    if v = .other_illnesses then
      match other with
      | none => .error (.httpException 400 "Other illness must have a value.")
      | some o =>
        match bcNames rest other with
        | .error e => .error e
        | .ok ns => .ok (o :: ns)
    else
      match bcNames rest other with
      | .error e => .error e
      | .ok ns => .ok (pyReplaceStr (bcName v) "_" " " :: ns)

/-- `transformers.Handedness.transform`. -/
def handednessTransform (self : TState HandednessV) : String :=
  if self.base = .unknown then ""
  else
    match self.base with
    | .left => "left-handed"
    | .right => "right-handed"
    | .unknown => "unknown-handed"

/-- `transformers.IndividualizedEducationProgram.transform`. -/
def iepTransform (self : TState IEPV) : String :=
  if self.base = .no then
    "did not have an Individualized Education Program (IEP)"
  else
    "had an Individualized Education Program (IEP)"

/-- `transformers.BirthDelivery.transform`. -/
def birthDeliveryTransform (self : TState BirthDeliveryV) : String :=
  if self.base = .unknown then "an unknown type of delivery"
  else if self.base = .vaginal then "a vaginal delivery"
  else "a cesarean section"

/-- `transformers.DeliveryLocation.transform`. -/
def deliveryLocationTransform (self : TState DeliveryLocationV) : String :=
  if self.base = .other then
    match self.other with
    | none => "an unspecified location"
    | some o => o
  else if self.base = .hospital then "a hospital"
  else "home"

/-- `transformers.Adaptability.transform`. -/
def adaptabilityTransform (self : TState AdaptabilityV) : String :=
  if self.base = .difficult then "a slow to warm up temperament"
  else "an adaptable temperament"

/-- Modelled from the spec: `descriptors.GuardianMaritalStatus` is used by
`transformers.GuardianMaritalStatus` but its enum declaration is not under
src/ in this snapshot; the spec only says it is a marital-status
Descriptor.  The three members the transformer special-cases are modelled
as constructors, every other member as a name-carrying value. -/
inductive GuardianMaritalStatusV
  | domestic_partnership
  | widowed
  | never_married
  | member (nm : String)
  deriving DecidableEq, Repr

/-- The `.name` attribute of a `GuardianMaritalStatus` member. -/
def gmsName : GuardianMaritalStatusV → String
  | .domestic_partnership => "domestic_partnership"
  | .widowed => "widowed"
  | .never_married => "never_married"
  | .member nm => nm

/-- `transformers.GuardianMaritalStatus.transform`. -/
def guardianMaritalStatusTransform (self : TState GuardianMaritalStatusV) : String :=
  if self.base = .domestic_partnership then
    "The parents/guardians are in a domestic partnership"
  else if self.base = .widowed then
    "The parent/guardian is widowed"
  else if self.base = .never_married then
    "The parents/guardians were never married"
  else
    "The parents/guardians are " ++ pyReplaceStr (gmsName self.base) "_" " "

/-- `transformers.EarlyIntervention.transform`. -/
def earlyInterventionTransform (self : TState String) : String :=
  if self.base = "" then
    "did not receive Early Intervention (EI)"
  else
    "received Early Intervention (EI) starting at " ++ self.base

/-- `transformers.CPSE.transform`. -/
def cpseTransform (self : TState String) : String :=
  if self.base = "" then
    "did not receive Committee on Preschool Special Education (CPSE) services"
  else
    "received Committee on Preschool Special Education (CPSE) services " ++
      "starting at \"" ++ self.base ++ "\""

/-- Modelled from the spec: `descriptors.ClassroomType` is used by
`transformers.ClassroomType` but its enum declaration is not under src/ in
this snapshot.  The `other` member the transformer special-cases is a
constructor, every other member a name-carrying value. -/
inductive ClassroomTypeV
  | other
  | member (nm : String)
  deriving DecidableEq, Repr

/-- The `.name` attribute of a `ClassroomType` member (`other` included,
though the transformer never reads it). -/
def classroomTypeName : ClassroomTypeV → String
  | .other => "other"
  | .member nm => nm

/-- `transformers.ClassroomType.transform`. -/
def classroomTypeTransform (self : TState ClassroomTypeV) : String :=
  if self.base = .other then
    match self.other with
    | none => "an unspecified classroom type"
    | some o => o
  else
    pyStrip (pyReplaceStr (pyReplaceStr (classroomTypeName self.base) "_" " ") "COLON" ":")

/-- `transformers.PastSchools.transform`. -/
def pastSchoolsTransform (self : TState (List PastSchoolInterface)) : String :=
  if self.base.length = 0 then
    "no prior history of schools"
  else
    "attended the following schools: " ++
      joinWithOxfordComma
        (self.base.map fun v => v.name ++ " (grades: " ++ v.grades ++ ")")

/-- The `str | int` base value of `transformers.DevelopmentSkill`. -/
inductive StrOrInt
  | int (n : Int)
  | str (s : String)
  deriving DecidableEq, Repr

/-- Python `f"{x}"` on an `Optional[str]`: `None` renders as "None". -/
def pyFormatOpt : Option String → String
  | none => "None"
  | some s => s

/-- `transformers.DevelopmentSkill.transform`, translated branch by
branch: the first branch fires for an `int` base (`isinstance`) or a
numeric string (`str.isnumeric`), the later branches compare the
lowercased base against "not yet", "normal"/"late" and "early". -/
def developmentSkillTransform (self : TState StrOrInt) : String :=
  match self.base with
  | .int n => pyFormatOpt self.other ++ " at " ++ toString n ++ " months/years"
  | .str s =>
    if pyIsNumeric s then
      pyFormatOpt self.other ++ " at " ++ s ++ " months/years"
    else if pyLower s = "not yet" then
      "has not " ++ pyFormatOpt self.other ++ " yet"
    else if pyLower s = "normal" || pyLower s = "late" then
      pyFormatOpt self.other ++ " at a " ++ pyLower s ++ " age"
    else if pyLower s = "early" then
      pyFormatOpt self.other ++ " at an early age"
    else
      pyFormatOpt self.other ++ " at " ++ s

/-- `transformers.PastDiagnoses.transform(short=...)`. -/
def pastDiagnosesTransform (self : TState (List PastDiagnosisV))
    (short : Bool := true) : String :=
  if self.base.length = 0 then
    "with no prior history of psychiatric diagnoses"
  else if short then
    "with a prior history of " ++
      joinWithOxfordComma (self.base.map fun v => v.diagnosis)
  else
    "was diagnosed with the following psychiatric diagnoses: " ++
      joinWithOxfordComma
        (self.base.map fun v => v.diagnosis ++ " at " ++ v.age ++ " by " ++ v.clinician)

/-- Modelled from the spec: `descriptors.HouseholdRelationship` is used by
`transformers.HouseholdRelationship` but its enum declaration is not under
src/ in this snapshot.  The `other_relative` member the transformer
special-cases is a constructor, every other member a name-carrying value. -/
inductive HouseholdRelationshipV
  | other_relative
  | member (nm : String)
  deriving DecidableEq, Repr

/-- The `.name` attribute of a `HouseholdRelationship` member. -/
def householdRelationshipName : HouseholdRelationshipV → String
  | .other_relative => "other_relative"
  | .member nm => nm

/-- `transformers.HouseholdRelationship.transform` (`self.other if
self.other else "unspecified relationship"` is Python truthiness: `None`
and the empty string both fall back). -/
def householdRelationshipTransform (self : TState HouseholdRelationshipV) : String :=
  if self.base = .other_relative then
    match self.other with
    | none => "unspecified relationship"
    | some o => if o = "" then "unspecified relationship" else o
  else
    pyReplaceStr (householdRelationshipName self.base) "_" " "

/-- `transformers.ViolenceAndTrauma.transform`. -/
def violenceAndTraumaTransform (self : TState String) : String :=
  if self.base = "" then
    "\x7b\x7bREPORTING_GUARDIAN\x7d\x7d denied any history of violence or trauma for " ++
      "\x7b\x7bPREFERRED_NAME\x7d\x7d."
  else
    "\x7b\x7bREPORTING_GUARDIAN\x7d\x7d reported that " ++ "\"" ++ self.base ++ "\"."

/-- `transformers.AggressiveBehavior.transform`. -/
def aggressiveBehaviorTransform (self : TState String) : String :=
  if self.base = "" then
    "\x7b\x7bREPORTING_GUARDIAN\x7d\x7d denied any history of homicidality or " ++
      "severe physically aggressive behaviors towards others for " ++
      "\x7b\x7bPREFERRED_NAME\x7d\x7d."
  else
    "\x7b\x7bREPORTING_GUARDIAN\x7d\x7d reported that " ++ "\"" ++ self.base ++ "\"."

/-- `transformers.ChildrenServices.transform`. -/
def childrenServicesTransform (self : TState String) : String :=
  if self.base = "" then
    "\x7b\x7bREPORTING_GUARDIAN\x7d\x7d denied any history of ACS involvement for " ++
      "\x7b\x7bPREFERRED_NAME\x7d\x7d."
  else
    "\x7b\x7bREPORTING_GUARDIAN\x7d\x7d reported that " ++ "\"" ++ self.base ++ "\"."

/-- `transformers.SelfHarm.transform`. -/
def selfHarmTransform (self : TState String) : String :=
  if self.base = "" then
    "\x7b\x7bREPORTING_GUARDIAN\x7d\x7d denied any history of serious self-injurious" ++
      " harm or suicidal ideation for \x7b\x7bPREFERRED_NAME\x7d\x7d"
  else
    "\x7b\x7bREPORTING_GUARDIAN\x7d\x7d reported that " ++ "\"" ++ self.base ++ "\"."

/-- `transformers.DurationOfPregnancy.transform`.  `floatG` is the one
genuinely floating-point step, `s ↦ f"⁅float(s):g⁆"`, passed in as a
parameter: `floatG s = none` models `float(s)` raising `ValueError`,
`floatG s = some g` models a successful parse rendered with `%g`. -/
def durationOfPregnancyTransform (floatG : String → Option String)
    (self : TState String) : String :=
  if self.base = "" then "unspecified"
  else
    match floatG self.base with
    | none =>
      let parts := pySplitWs self.base
      if parts.length = 2 && pyIsNumeric (parts.getD 0 "")
          && pyLower (parts.getD 1 "") = "weeks" then
        pyLower self.base
      else
        "\"" ++ self.base ++ "\""
    | some g => g ++ " weeks"

/-- `transformers.BirthComplications.transform`. -/
def birthComplicationsTransform (self : TState (List BirthComplicationV)) :
    Except PyErr String :=
  if BirthComplicationV.none_of_the_above ∈ self.base then
    .ok "no birth complications"
  else
    match bcNames self.base self.other with
    | .error e => .error e
    | .ok names =>
      if names.length = 1 then
        .ok ("the following birth complication: " ++ names.headD "")
      else
        .ok ("the following birth complications: " ++ joinWithOxfordComma names)

/-! ## Claim-side specification functions (written from the claims' words,
to be compared with the source embeddings above) -/

/-- C5's wording of `DurationOfPregnancy.transform`: when the string
parses as a number, "<n> weeks"; when it does not parse but consists of
exactly two whitespace-separated parts whose first is numeric and whose
second is case-insensitively "weeks", the string lowercased verbatim;
otherwise the string wrapped in double quotes. -/
def durationOfPregnancySpec (floatG : String → Option String) (s : String) : String :=
  match floatG s with
  | some g => g ++ " weeks"
  | none =>
    match pySplitWs s with
    | [p0, p1] =>
      if pyIsNumeric p0 && pyLower p1 = "weeks" then pyLower s
      else "\"" ++ s ++ "\""
    | _ => "\"" ++ s ++ "\""

/-- C6's wording of `DevelopmentSkill.transform`: numeric base →
"<other> at <base> months/years"; case-insensitive "not yet" →
"has not <other> yet"; "normal"/"late" → "<other> at a <base lowercased>
age"; "early" → "<other> at an early age"; anything else →
"<other> at <base>" verbatim. -/
def developmentSkillSpec (base : StrOrInt) (other : String) : String :=
  match base with
  | .int n => other ++ " at " ++ toString n ++ " months/years"
  | .str s =>
    if pyIsNumeric s then other ++ " at " ++ s ++ " months/years"
    else if pyLower s = "not yet" then "has not " ++ other ++ " yet"
    else if pyLower s = "normal" || pyLower s = "late" then
      other ++ " at a " ++ pyLower s ++ " age"
    else if pyLower s = "early" then other ++ " at an early age"
    else other ++ " at " ++ s

/-! ## utils.py `DocxReplace` (paragraph/run model) -/

/-- A style run of a paragraph: its text and a formatting tag.  The tag
stands for the run's whole character formatting (bold/italic/font/color);
`_replace_in_section` only ever writes `run.text`, never the formatting,
so a replacement spliced into a run carries that run's formatting. -/
structure Run where
  text : List Char
  fmt : Nat
  deriving DecidableEq, Repr

/-- `paragraph.text`: the concatenation of the runs' texts. -/
def concatRunText : List Run → List Char
  | [] => []
  | r :: rest => r.text ++ concatRunText rest

/-- Scanner for `re.finditer(re.escape(find), text)` with a non-empty
`find`: left-to-right, non-overlapping match start indices.  `fuel`
bounds the recursion; `text.length + 1` suffices since `i` grows every
step. -/
def matchStartsAux (hay pat : List Char) : Nat → Nat → List Nat
  | 0, _ => []
  | fuel + 1, i =>
    if i + pat.length ≤ hay.length then
      if pat.isPrefixOf (hay.drop i) then
        i :: matchStartsAux hay pat fuel (i + pat.length)
      else
        matchStartsAux hay pat fuel (i + 1)
    else []

/-- `[match.start() for match in re.finditer(re.escape(find), text)]`.
(For an empty pattern Python yields every boundary position.) -/
def matchStarts (hay pat : List Char) : List Nat :=
  if pat.isEmpty then List.range (hay.length + 1)
  else matchStartsAux hay pat (hay.length + 1) 0

/-- The `while overflow > 0` loop of `_replace_in_section`: while the
replaced match extends `overflow` characters beyond the current run, cut
that many characters from the head of the following run
(`next_run.text = next_run.text[overflow:]`), using the run's old length
to update `overflow`.  Indexing past the last run models Python's
`IndexError`.  `fuel` bounds the loop; `runs.length + 1` suffices since
the index grows each iteration. -/
def consumeOverflow (fuel : Nat) (runs : List Run) (idx : Nat) (ov : Int) :
    Except Unit (List Run) :=
  if ov ≤ 0 then .ok runs
  else
    match fuel with
    | 0 => .error ()
    | fuel' + 1 =>
      match runs[idx]? with
      | none => .error ()
      | some r =>
        consumeOverflow fuel'
          (runs.set idx { r with text := r.text.drop ov.toNat })
          (idx + 1) (ov - (r.text.length : Int))

/-- One iteration of the reverse run loop of `_replace_in_section` at
`runIndex`: compute the run's span from the pre-loop length snapshot,
take the first match index falling inside this run (the inner `for`/
`continue`/`break`), splice the replacement over the tail of this run,
then consume the overflow from the following runs.  `runLengths[run_index]`
is always in range because the loop runs over `range(len(runs))`. -/
def processRun (find rep : List Char) (runLengths : List Nat)
    (matchIdxs : List Nat) (runs : List Run) (runIndex : Nat) :
    Except Unit (List Run) :=
  let runStart := (runLengths.take runIndex).sum
  let runEnd := runStart + runLengths.getD runIndex 0
  match runs[runIndex]? with
  | none => .error ()
  | some runObj =>
    match matchIdxs.find? (fun m => decide (runStart ≤ m ∧ m < runEnd)) with
    | none => .ok runs
    | some m =>
      let overflow : Int := (m : Int) + (find.length : Int) - (runEnd : Int)
      let runs' := runs.set runIndex
        { runObj with text := runObj.text.take (m - runStart) ++ rep }
      consumeOverflow (runs'.length + 1) runs' (runIndex + 1) overflow

/-- The reverse loop `for run_index in range(len(runs) - 1, -1, -1)`:
`processRunsDown … (k + 1)` processes index `k` and recurses downwards. -/
def processRunsDown (find rep : List Char) (runLengths : List Nat)
    (matchIdxs : List Nat) : Nat → List Run → Except Unit (List Run)
  | 0, runs => .ok runs
  | k + 1, runs =>
    match processRun find rep runLengths matchIdxs runs k with
    | .error e => .error e
    | .ok runs' => processRunsDown find rep runLengths matchIdxs k runs'

/-- `DocxReplace._replace_in_section` on the run model: return unchanged
when `find` is absent from the paragraph text; apply the within-run
`str.replace` pass; return if no occurrence of `find` remains; otherwise
run the index-based cross-run pass over the match positions of the
post-pass text (lengths snapshot taken before the reverse loop). -/
def replaceInSection (runs : List Run) (find rep : List Char) :
    Except Unit (List Run) :=
  if !strContainsSub (concatRunText runs) find then .ok runs
  else
    let runs1 := runs.map fun r => { r with text := pyReplaceList r.text find rep }
    if !strContainsSub (concatRunText runs1) find then .ok runs1
    else
      let matchIdxs := matchStarts (concatRunText runs1) find
      let runLengths := runs1.map fun r => r.text.length
      processRunsDown find rep runLengths matchIdxs runs1.length runs1

/-! ## writer.py (the parts the claims are about) -/

/-- The patient fields read by the writer sections modelled here. -/
structure PatientLite where
  preferredName : String
  pronoun0 : String
  guardianFullName : String
  deriving DecidableEq, Repr

/-- A block of the report document as appended by the writer
(`add_heading` / `add_paragraph`). -/
inductive Block
  | heading (level : Nat) (text : String)
  | paragraph (text : String)
  deriving DecidableEq, Repr

/-- The `text` local computed by `ReportWriter.write_medical_history`
(f-string fields interpolated, then `_remove_excess_whitespace`). -/
def medicalHistoryText (p : PatientLite) : String :=
  removeExcessWhitespace
    (p.preferredName ++
      "\x27s medical history is unremarkable for significant medical conditions. " ++
      p.pronoun0 ++ " is not currently taking any medications for chronic medical conditions. " ++
      p.preferredName ++ " wears prescription glasses in home and school settings. " ++
      p.pronoun0 ++ " does/does not require a hearing device. " ++
      p.guardianFullName ++
      " denied any history of seizures, head trauma, migraines, meningitis or encephalitis.")

/-- `ReportWriter.write_medical_history` as a function on the report body:
the method computes `text` and then returns — its body contains no
`add_heading` or `add_paragraph` call, so the report is returned
unchanged.  (The `write_with_rgb_text` decorator only re-colors paragraphs
added by the wrapped call, of which there are none.) -/
def writeMedicalHistory (p : PatientLite) (report : List Block) : List Block :=
  let _text := medicalHistoryText p
  report

/-- The `(level, text)` arguments of every `add_heading` call made during
`ReportWriter.transform()`, in call order (sections merged from the two
template documents contribute no `add_heading` call from the writer).
`write_medical_history` contributes nothing: it makes no `add_heading`
call. -/
def transformIntakeHeadings : List (Nat × String) :=
  [(1, "REASON FOR VISIT"),
   (1, "DEVELOPMENTAL HISTORY"),
   (2, "Prenatal and Birth History"),
   (2, "Developmental Milestones"),
   (2, "Early Educational Interventions"),
   (1, "ACADEMIC AND EDUCATIONAL HISTORY"),
   (2, "Previous Testing"),
   (2, "Educational History"),
   (1, "SOCIAL HISTORY"),
   (2, "Home and Adaptive Functioning"),
   (2, "Social Functioning"),
   (1, "PSYCHRIATIC HISTORY"),
   (2, "Past Psychiatric Diagnoses"),
   (2, "Past Psychiatric Hospitalizations"),
   (2, "Past Therapeutic Interventions"),
   (2, "Past Self-Injurious Behaviors and Suicidality"),
   (2, "Past Severe Aggressive Behaviors and Homicidality"),
   (2, "Exposure to Violence and Trauma"),
   (2, "Administration for Children\x27s Services (ACS) Involvement"),
   (2, "Family Psychiatric History"),
   (1, "CURRENT PSYCHIATRIC FUNCTIONING"),
   (2, "Current Psychiatric Medications"),
   (0, "Insert List of Tests, Normal Curve and RA Text"),
   (1, "CLINICAL SUMMARY AND IMPRESSIONS"),
   (2, "Cognition, Language and Learning Evaluation"),
   (2, "Mental Health Assessment"),
   (1, "DSM-5 Diagnoses"),
   (1, "RECOMMENDATIONS"),
   (2, "Further Evaluation"),
   (2, "Academics and Learning"),
   (2, "Psychotherapy"),
   (2, "Psychopharmacology")]

/-- A Python value as compared by `==` in
`ReportWriter.write_educational_history`: either a `str` or the
`IndividualizedEducationProgram` transformer object stored by the parser
in `education.individualized_educational_program`. -/
inductive PyVal
  | pyStr (s : String)
  | iepObj (st : TState IEPV)
  deriving DecidableEq

/-- Python `==` between such values: `str == str` is string equality; a
Transformer defines no `__eq__`, so comparing the object with a `str`
falls back to the default reference comparison and is `False` (the only
cross-type comparison the source performs). -/
def pyEq : PyVal → PyVal → Bool
  | .pyStr a, .pyStr b => a = b
  | _, _ => false

/-- `has_iep = education.individualized_educational_program == "yes"` from
`write_educational_history`: the left operand is the transformer object
itself, not its `transform()` output. -/
def eduHasIEP (st : TState IEPV) : Bool :=
  pyEq (.iepObj st) (.pyStr "yes")

/-- The `iep_prior_text` local of `write_educational_history`, after the
whitespace normalization the writer applies (the source's typo
"Individiualized" in the else-branch is kept; `______` is the clinician
placeholder). -/
def iepPriorText (preferredName : String) (st : TState IEPV) : String :=
  if eduHasIEP st then
    preferredName ++ " was granted an Individualized Education Program (IEP) in " ++
      "______ grade due to ______ difficulties."
  else
    preferredName ++ " has never had an Individiualized Education Program (IEP)."

/-! ## The transformer library as one closed type (for the purity claim) -/

/-- One constructor per transformer class of transformers.py, carrying the
state its `__init__` stores. -/
inductive TransformerInstance
  | handedness (st : TState HandednessV)
  | iep (st : TState IEPV)
  | birthComplications (st : TState (List BirthComplicationV))
  | durationOfPregnancy (st : TState String)
  | birthDelivery (st : TState BirthDeliveryV)
  | deliveryLocation (st : TState DeliveryLocationV)
  | adaptability (st : TState AdaptabilityV)
  | guardianMaritalStatus (st : TState GuardianMaritalStatusV)
  | earlyIntervention (st : TState String)
  | cpse (st : TState String)
  | classroomType (st : TState ClassroomTypeV)
  | pastSchools (st : TState (List PastSchoolInterface))
  | developmentSkill (st : TState StrOrInt)
  | pastDiagnoses (st : TState (List PastDiagnosisV))
  | householdRelationship (st : TState HouseholdRelationshipV)
  | violenceAndTrauma (st : TState String)
  | aggressiveBehavior (st : TState String)
  | childrenServices (st : TState String)
  | selfHarm (st : TState String)
  deriving DecidableEq

/-- One call of `transform()` on an instance, modelled as a state-passing
method: the returned instance is the object's state after the call.  No
`transform` body in transformers.py assigns to `self`, so every branch
returns the input instance unchanged; raising transformers return
`.error`.  `PastDiagnoses.transform()` is called with its default
`short=True`. -/
def transformOnce (floatG : String → Option String) :
    TransformerInstance → Except PyErr String × TransformerInstance
  | .handedness st => (.ok (handednessTransform st), .handedness st)
  | .iep st => (.ok (iepTransform st), .iep st)
  | .birthComplications st => (birthComplicationsTransform st, .birthComplications st)
  | .durationOfPregnancy st =>
    (.ok (durationOfPregnancyTransform floatG st), .durationOfPregnancy st)
  | .birthDelivery st => (.ok (birthDeliveryTransform st), .birthDelivery st)
  | .deliveryLocation st => (.ok (deliveryLocationTransform st), .deliveryLocation st)
  | .adaptability st => (.ok (adaptabilityTransform st), .adaptability st)
  | .guardianMaritalStatus st =>
    (.ok (guardianMaritalStatusTransform st), .guardianMaritalStatus st)
  | .earlyIntervention st => (.ok (earlyInterventionTransform st), .earlyIntervention st)
  | .cpse st => (.ok (cpseTransform st), .cpse st)
  | .classroomType st => (.ok (classroomTypeTransform st), .classroomType st)
  | .pastSchools st => (.ok (pastSchoolsTransform st), .pastSchools st)
  | .developmentSkill st => (.ok (developmentSkillTransform st), .developmentSkill st)
  | .pastDiagnoses st => (.ok (pastDiagnosesTransform st true), .pastDiagnoses st)
  | .householdRelationship st =>
    (.ok (householdRelationshipTransform st), .householdRelationship st)
  | .violenceAndTrauma st => (.ok (violenceAndTraumaTransform st), .violenceAndTrauma st)
  | .aggressiveBehavior st => (.ok (aggressiveBehaviorTransform st), .aggressiveBehavior st)
  | .childrenServices st => (.ok (childrenServicesTransform st), .childrenServices st)
  | .selfHarm st => (.ok (selfHarmTransform st), .selfHarm st)

/-- Decoding a list of codes succeeds on exactly the lists of declared
codes, and decodes elementwise. -/
lemma bcDecodeList_ok_length {codes : List Nat} {base : List BirthComplicationV}
    (h : bcDecodeList codes = .ok base) : base.length = codes.length := by
  induction codes generalizing base with
  | nil => simp only [bcDecodeList] at h; cases h; rfl
  | cons c rest ih =>
    simp only [bcDecodeList] at h
    cases hc : bcOfCode c with
    | error e => rw [hc] at h; cases h
    | ok v =>
      rw [hc] at h
      cases hr : bcDecodeList rest with
      | error e => rw [hr] at h; cases h
      | ok vs =>
        rw [hr] at h
        cases h
        simp [ih hr]

/-- Membership transfers along `bcDecodeList`. -/
lemma bcDecodeList_ok_mem {codes : List Nat} {base : List BirthComplicationV}
    {c : Nat} {v : BirthComplicationV} (h : bcDecodeList codes = .ok base)
    (hc : c ∈ codes) (hv : bcOfCode c = .ok v) : v ∈ base := by
  induction codes generalizing base with
  | nil => cases hc
  | cons d rest ih =>
    simp only [bcDecodeList] at h
    cases hd : bcOfCode d with
    | error e => rw [hd] at h; cases h
    | ok w =>
      rw [hd] at h
      cases hr : bcDecodeList rest with
      | error e => rw [hr] at h; cases h
      | ok ws =>
        rw [hr] at h
        cases h
        rcases List.mem_cons.mp hc with rfl | hmem
        · rw [hd] at hv; cases hv; exact List.mem_cons_self _ _
        · exact List.mem_cons_of_mem _ (ih hr hmem)

/-- Decoding succeeds when every code is a declared one. -/
lemma bcDecodeList_ok_of_valid {codes : List Nat}
    (h : ∀ c ∈ codes, 1 ≤ c ∧ c ≤ 20) :
    ∃ base, bcDecodeList codes = .ok base := by
  induction codes with
  | nil => exact ⟨[], rfl⟩
  | cons c rest ih =>
    obtain ⟨hc1, hc2⟩ := h c (List.mem_cons_self _ _)
    obtain ⟨v, hv⟩ : ∃ v, bcOfCode c = .ok v := by
      interval_cases c <;> exact ⟨_, rfl⟩
    obtain ⟨base, hbase⟩ := ih fun d hd => h d (List.mem_cons_of_mem _ hd)
    exact ⟨v :: base, by simp [bcDecodeList, hv, hbase]⟩

/-- With a freeform `other` value present, the name-accumulation loop of
`BirthComplications.transform` cannot raise. -/
lemma bcNames_ok_of_some (base : List BirthComplicationV) (o : String) :
    ∃ ns, bcNames base (some o) = .ok ns := by
  induction base with
  | nil => exact ⟨[], rfl⟩
  | cons v rest ih =>
    obtain ⟨ns, hns⟩ := ih
    by_cases hv : v = .other_illnesses
    · refine ⟨o :: ns, ?_⟩
      simp only [bcNames, if_pos hv, hns]
    · refine ⟨pyReplaceStr (bcName v) "_" " " :: ns, ?_⟩
      simp only [bcNames, if_neg hv, hns]

/-- The name-accumulation loop succeeds exactly when no `other_illnesses`
entry is present with `other = None`. -/
lemma bcNames_ok_iff (base : List BirthComplicationV) (other : Option String) :
    (∃ ns, bcNames base other = .ok ns) ↔
      ¬(BirthComplicationV.other_illnesses ∈ base ∧ other = none) := by
  cases other with
  | some o =>
    simp only [iff_true_intro (bcNames_ok_of_some base o), true_iff]
    rintro ⟨-, h⟩; cases h
  | none =>
    have key : ∀ bs : List BirthComplicationV,
        (∃ ns, bcNames bs none = .ok ns) ↔ BirthComplicationV.other_illnesses ∉ bs := by
      intro bs
      induction bs with
      | nil => simp [bcNames]
      | cons v rest ih =>
        by_cases hv : v = .other_illnesses
        · subst hv
          constructor
          · rintro ⟨ns, hns⟩
            simp only [bcNames, if_pos rfl] at hns
            cases hns
          · intro h; exact absurd (List.mem_cons_self _ _) h
        · constructor
          · rintro ⟨ns, hns⟩
            simp only [bcNames, if_neg hv] at hns
            cases hr : bcNames rest none with
            | error e => rw [hr] at hns; cases hns
            | ok ms =>
              have hrest := ih.mp ⟨ms, hr⟩
              intro hmem
              rcases List.mem_cons.mp hmem with h | h
              · exact hv h.symm
              · exact hrest h
          · intro h
            have hrest : BirthComplicationV.other_illnesses ∉ rest :=
              fun hm => h (List.mem_cons_of_mem _ hm)
            obtain ⟨ms, hms⟩ := ih.mpr hrest
            refine ⟨pyReplaceStr (bcName v) "_" " " :: ms, ?_⟩
            simp only [bcNames, if_neg hv, hms]
    rw [key base]
    simp

/-- Characterization of the substring test. -/
lemma strContainsSub_eq_true {hay pat : List Char} :
    strContainsSub hay pat = true ↔
      ∃ i, i ≤ hay.length ∧ pat.isPrefixOf (hay.drop i) = true := by
  simp [strContainsSub, List.any_eq_true, List.mem_range, Nat.lt_succ_iff]

/-- A string with no occurrence of `pat` has none at its head nor in its
tail. -/
lemma strContainsSub_cons_false {pat : List Char} {c : Char} {rest : List Char}
    (h : strContainsSub (c :: rest) pat = false) :
    pat.isPrefixOf (c :: rest) = false ∧ strContainsSub rest pat = false := by
  constructor
  · by_contra hp
    have hp' : pat.isPrefixOf (c :: rest) = true := by
      cases hq : pat.isPrefixOf (c :: rest) with
      | false => exact absurd hq hp
      | true => rfl
    have : strContainsSub (c :: rest) pat = true :=
      strContainsSub_eq_true.mpr ⟨0, Nat.zero_le _, hp'⟩
    rw [h] at this; cases this
  · by_contra hr
    have hr' : strContainsSub rest pat = true := by
      cases hq : strContainsSub rest pat with
      | false => exact absurd hq hr
      | true => rfl
    obtain ⟨i, hi, hpre⟩ := strContainsSub_eq_true.mp hr'
    have : strContainsSub (c :: rest) pat = true :=
      strContainsSub_eq_true.mpr ⟨i + 1, by simpa using Nat.succ_le_succ hi, by simpa using hpre⟩
    rw [h] at this; cases this

/-- When `hay` contains no occurrence of a non-empty `find`, the
within-run replacement pass leaves it unchanged. -/
lemma pyReplaceAux_eq_self {find rep : List Char} :
    ∀ (fuel : Nat) (hay : List Char), strContainsSub hay find = false →
      pyReplaceAux find rep fuel hay = hay := by
  intro fuel
  induction fuel with
  | zero => intro hay _; rfl
  | succ fuel ih =>
    intro hay h
    cases hay with
    | nil => rfl
    | cons c rest =>
      obtain ⟨h1, h2⟩ := strContainsSub_cons_false h
      simp only [pyReplaceAux, h1, Bool.false_and, Bool.false_eq_true, if_false, ih rest h2]

/-- `str.replace` is the identity when the pattern does not occur. -/
lemma pyReplaceList_eq_self {hay find rep : List Char} (hfind : find ≠ [])
    (h : strContainsSub hay find = false) : pyReplaceList hay find rep = hay := by
  have hne : find.isEmpty = false := by
    cases find with
    | nil => exact absurd rfl hfind
    | cons c cs => rfl
  simp only [pyReplaceList, hne, Bool.false_eq_true, if_false]
  exact pyReplaceAux_eq_self _ _ h

/-- `consumeOverflow` stops as soon as the overflow is exhausted. -/
lemma consumeOverflow_stop {fuel : Nat} {runs : List Run} {idx : Nat} {ov : Int}
    (h : ov ≤ 0) : consumeOverflow fuel runs idx ov = .ok runs := by
  rw [consumeOverflow.eq_def, if_pos h]

/-- One iteration of `consumeOverflow` with remaining overflow. -/
lemma consumeOverflow_step {f : Nat} {runs : List Run} {idx : Nat} {ov : Int}
    {r : Run} (h : ¬ov ≤ 0) (hr : runs[idx]? = some r) :
    consumeOverflow (f + 1) runs idx ov =
      consumeOverflow f (runs.set idx { r with text := r.text.drop ov.toNat })
        (idx + 1) (ov - (r.text.length : Int)) := by
  rw [consumeOverflow.eq_def, if_neg h]
  simp only [hr]

/-- `find?` on a one-element list, negative case. -/
lemma find?_singleton_none {α : Type} {p : α → Bool} {a : α} (h : p a = false) :
    List.find? p [a] = none := by
  rw [List.find?_cons_of_neg [] (by rw [h]; intro hc; cases hc), List.find?_nil]

/-- `find?` on a one-element list, positive case. -/
lemma find?_singleton_some {α : Type} {p : α → Bool} {a : α} (h : p a = true) :
    List.find? p [a] = some a :=
  List.find?_cons_of_pos [] h

/-- `processRun` at a run containing no match index leaves the runs
unchanged. -/
lemma processRun_none {find rep : List Char} {L M : List Nat} {runs : List Run}
    {i : Nat} {u : Run} (hu : runs[i]? = some u)
    (hf : M.find? (fun m =>
      decide ((L.take i).sum ≤ m ∧ m < (L.take i).sum + L.getD i 0)) = none) :
    processRun find rep L M runs i = .ok runs := by
  simp only [processRun, hu, hf]

/-- `processRun` at the run holding the first in-range match index: the
run's tail from the match position is replaced and the overflow is
consumed from the following runs. -/
lemma processRun_hit {find rep : List Char} {L M : List Nat} {runs : List Run}
    {i : Nat} {u : Run} {m : Nat} (hu : runs[i]? = some u)
    (hf : M.find? (fun m =>
      decide ((L.take i).sum ≤ m ∧ m < (L.take i).sum + L.getD i 0)) = some m) :
    processRun find rep L M runs i =
      consumeOverflow
        ((runs.set i
          { u with text := u.text.take (m - (L.take i).sum) ++ rep }).length + 1)
        (runs.set i
          { u with text := u.text.take (m - (L.take i).sum) ++ rep })
        (i + 1)
        ((m : Int) + (find.length : Int) - (((L.take i).sum + L.getD i 0 : Nat) : Int)) := by
  simp only [processRun, hu, hf]

/-- The reverse run loop advances one index per step when no exception is
raised. -/
lemma processRunsDown_succ {find rep : List Char} {L M : List Nat} {k : Nat}
    {runs runs' : List Run}
    (h : processRun find rep L M runs k = .ok runs') :
    processRunsDown find rep L M (k + 1) runs =
      processRunsDown find rep L M k runs' := by
  simp only [processRunsDown, h]

/-- Two distinct members force length at least two. -/
lemma two_le_length_of_mem_ne {α : Type} [DecidableEq α] {a b : α} {l : List α}
    (ha : a ∈ l) (hb : b ∈ l) (hne : a ≠ b) : 2 ≤ l.length := by
  have hb' : b ∈ l.erase a := (List.mem_erase_of_ne (Ne.symm hne)).mpr hb
  have h1 : 0 < (l.erase a).length := List.length_pos.mpr (List.ne_nil_of_mem hb')
  have h2 : (l.erase a).length = l.length - 1 := List.length_erase_of_mem ha
  have h3 : 0 < l.length := List.length_pos.mpr (List.ne_nil_of_mem ha)
  omega

end Ctk

/-- C7: `join_with_oxford_comma` returns "" on `[]`, the sole item on a
one-element list, "A and B" on two elements, and for three or more
elements all but the last joined by ", " followed by ", and " and the
last element; e.g. `["a","b","c"]` yields `"a, b, and c"`. -/
theorem Ctk.claim7_oxford_comma :
    Ctk.joinWithOxfordComma [] = "" ∧
    (∀ a : String, Ctk.joinWithOxfordComma [a] = a) ∧
    (∀ a b : String, Ctk.joinWithOxfordComma [a, b] = a ++ " and " ++ b) ∧
    (∀ x y z : String, ∀ rest : List String,
      Ctk.joinWithOxfordComma (x :: y :: z :: rest) =
        String.intercalate ", " ((x :: y :: z :: rest).dropLast) ++ ", and " ++
          (x :: y :: z :: rest).getLastD "") ∧
    Ctk.joinWithOxfordComma ["a", "b", "c"] = "a, b, and c" := by
  refine ⟨rfl, fun a => rfl, fun a b => rfl, fun x y z rest => ?_, by rfl⟩
  have h0 : (x :: y :: z :: rest).length ≠ 0 := by simp
  have h1 : (x :: y :: z :: rest).length ≠ 1 := by simp
  have h2 : (x :: y :: z :: rest).length ≠ 2 := by simp
  simp only [Ctk.joinWithOxfordComma, if_neg h0, if_neg h1, if_neg h2]

/-- C8: for every non-negative integer, `ordinal_suffix` follows the
last-two-digits 11..13 special case and otherwise the last digit, matching
the claim's rule and its listed values 1→st, 2→nd, 3→rd, 4→th, 11→th,
12→th, 13→th, 21→st, 111→th, 113→th. -/
theorem Ctk.claim8_ordinal_suffix :
    (∀ n : Nat, Ctk.ordinalSuffix (n : Int) = Ctk.ordinalSuffixSpec n) ∧
    Ctk.ordinalSuffix 1 = "st" ∧ Ctk.ordinalSuffix 2 = "nd" ∧
    Ctk.ordinalSuffix 3 = "rd" ∧ Ctk.ordinalSuffix 4 = "th" ∧
    Ctk.ordinalSuffix 11 = "th" ∧ Ctk.ordinalSuffix 12 = "th" ∧
    Ctk.ordinalSuffix 13 = "th" ∧ Ctk.ordinalSuffix 21 = "st" ∧
    Ctk.ordinalSuffix 111 = "th" ∧ Ctk.ordinalSuffix 113 = "th" := by
  refine ⟨fun n => ?_, rfl, rfl, rfl, rfl, rfl, rfl, rfl, rfl, rfl, rfl⟩
  have h100 : (n : Int) % 100 = ((n % 100 : Nat) : Int) := (Int.natCast_mod n 100).symm
  have h10 : (n : Int) % 10 = ((n % 10 : Nat) : Int) := (Int.natCast_mod n 10).symm
  simp only [Ctk.ordinalSuffix, Ctk.ordinalSuffixSpec, h100, h10]
  norm_cast

/-- C3: constructing the BirthComplications transformer with
`none_of_the_above` (code 20) together with at least one other
complication code raises the HTTP 400 validation error at construction
time, while `[none_of_the_above]` alone succeeds and its `transform()`
returns exactly "no birth complications". -/
theorem Ctk.claim3_birth_complications_validation :
    (∀ (codes : List Nat) (other : Option String),
      (∀ c ∈ codes, 1 ≤ c ∧ c ≤ 20) → 20 ∈ codes → (∃ c ∈ codes, c ≠ 20) →
      Ctk.mkBirthComplications codes other =
        .error (.httpException 400
          ("Birth complications \x27none of the above\x27 cannot be combined " ++
            "with other birth complications."))) ∧
    Ctk.mkBirthComplications [20] none =
      .ok ⟨[Ctk.BirthComplicationV.none_of_the_above], none⟩ ∧
    Ctk.birthComplicationsTransform ⟨[Ctk.BirthComplicationV.none_of_the_above], none⟩ =
      .ok "no birth complications" := by
  refine ⟨?_, rfl, rfl⟩
  intro codes other hvalid h20 ⟨c, hc, hcne⟩
  obtain ⟨base, hbase⟩ := Ctk.bcDecodeList_ok_of_valid hvalid
  have hnoa : Ctk.BirthComplicationV.none_of_the_above ∈ base :=
    Ctk.bcDecodeList_ok_mem hbase h20 rfl
  have hlen : 1 < base.length := by
    have h2 : 2 ≤ codes.length := Ctk.two_le_length_of_mem_ne h20 hc (Ne.symm hcne)
    have := Ctk.bcDecodeList_ok_length hbase
    omega
  simp only [Ctk.mkBirthComplications, hbase, if_pos (And.intro hnoa hlen)]

/-- C3 witness: the theorem applied at codes `[20, 4]`
(`none_of_the_above` with `diabetes`). -/
theorem Ctk.claim3_witness :
    Ctk.mkBirthComplications [20, 4] none =
      .error (.httpException 400
        ("Birth complications \x27none of the above\x27 cannot be combined " ++
          "with other birth complications.")) :=
  Ctk.claim3_birth_complications_validation.1 [20, 4] none
    (by decide) (by decide) ⟨4, by decide, by decide⟩

/-- C2 counterexample: the transformer constructed from
`[other_illnesses]` (code 19) with `other = None` is accepted by the
constructor, yet its `transform()` raises an HTTP 400 error instead of
returning a string — refuting the claim that a successfully constructed
BirthComplications transformer never raises at transform time. -/
theorem Ctk.claim2_counterexample :
    Ctk.mkBirthComplications [19] none =
      .ok ⟨[Ctk.BirthComplicationV.other_illnesses], none⟩ ∧
    Ctk.birthComplicationsTransform ⟨[Ctk.BirthComplicationV.other_illnesses], none⟩ =
      .error (.httpException 400 "Other illness must have a value.") :=
  ⟨rfl, rfl⟩

/-- C2 (amended): for every successfully constructed BirthComplications
transformer, `transform()` returns a string exactly when the complication
list does not contain `other_illnesses` with `other = None`; in that one
remaining case it raises an HTTP 400 error at transform time. -/
theorem Ctk.claim2_transform_ok_iff :
    ∀ (codes : List Nat) (other : Option String)
      (st : Ctk.TState (List Ctk.BirthComplicationV)),
      Ctk.mkBirthComplications codes other = .ok st →
      ((∃ s, Ctk.birthComplicationsTransform st = .ok s) ↔
        ¬(Ctk.BirthComplicationV.other_illnesses ∈ st.base ∧ st.other = none)) := by
  intro codes other st hmk
  simp only [Ctk.mkBirthComplications] at hmk
  cases hbase : Ctk.bcDecodeList codes with
  | error e => rw [hbase] at hmk; cases hmk
  | ok base =>
    rw [hbase] at hmk
    have hmk' : (if Ctk.BirthComplicationV.none_of_the_above ∈ base ∧ 1 < base.length then
        (Except.error (Ctk.PyErr.httpException 400
          ("Birth complications \x27none of the above\x27 cannot be combined " ++
            "with other birth complications.")) : Except Ctk.PyErr (Ctk.TState (List Ctk.BirthComplicationV)))
      else Except.ok ⟨base, other⟩) = Except.ok st := hmk
    clear hmk
    by_cases hcond : Ctk.BirthComplicationV.none_of_the_above ∈ base ∧ 1 < base.length
    · rw [if_pos hcond] at hmk'; cases hmk'
    · rw [if_neg hcond] at hmk'
      cases hmk'
      by_cases hnoa : Ctk.BirthComplicationV.none_of_the_above ∈ base
      · have hone : base.length ≤ 1 := by
          by_contra hgt
          exact hcond ⟨hnoa, by omega⟩
        have hbase_eq : base = [Ctk.BirthComplicationV.none_of_the_above] := by
          cases base with
          | nil => cases hnoa
          | cons v rest =>
            cases rest with
            | nil =>
              rcases List.mem_cons.mp hnoa with h | h
              · rw [h]
              · cases h
            | cons w rest2 => simp at hone
        constructor
        · intro _
          rintro ⟨hoi, -⟩
          rw [hbase_eq] at hoi
          rcases List.mem_cons.mp hoi with h | h
          · cases h
          · cases h
        · intro _
          exact ⟨"no birth complications", by
            simp only [Ctk.birthComplicationsTransform, if_pos hnoa]⟩
      · simp only [Ctk.birthComplicationsTransform, if_neg hnoa]
        rcases hok : Ctk.bcNames base other with e | ns
        · constructor
          · rintro ⟨s, hs⟩; cases hs
          · intro h
            obtain ⟨ns, hns⟩ := (Ctk.bcNames_ok_iff base other).mpr h
            rw [hok] at hns; cases hns
        · constructor
          · intro _
            exact (Ctk.bcNames_ok_iff base other).mp ⟨ns, hok⟩
          · intro _
            by_cases hlen1 : ns.length = 1
            · refine ⟨"the following birth complication: " ++ ns.headD "", ?_⟩
              simp only [hok, if_pos hlen1]
            · refine ⟨"the following birth complications: " ++
                Ctk.joinWithOxfordComma ns, ?_⟩
              simp only [hok, if_neg hlen1]

/-- C2 witness: the amended theorem applied to the transformer built from
`[4]` (`diabetes`) with `other = None`. -/
theorem Ctk.claim2_witness :
    Ctk.mkBirthComplications [4] none = .ok ⟨[Ctk.BirthComplicationV.diabetes], none⟩ ∧
    ((∃ s, Ctk.birthComplicationsTransform ⟨[Ctk.BirthComplicationV.diabetes], none⟩ = .ok s) ↔
      ¬(Ctk.BirthComplicationV.other_illnesses ∈ [Ctk.BirthComplicationV.diabetes] ∧
        (none : Option String) = none)) :=
  ⟨rfl, Ctk.claim2_transform_ok_iff [4] none ⟨[Ctk.BirthComplicationV.diabetes], none⟩ rfl⟩

/-- C1: `write_medical_history` only computes its `text` local and never
adds it (or any heading) to the report — the report is unchanged for
every patient, and no `add_heading` call of the whole `transform()`
sequence emits a medical-history heading (while e.g. the reason-for-visit
heading is emitted exactly once).  The end-to-end document therefore
cannot contain the mandatory medical-history section heading. -/
theorem Ctk.claim1_medical_history_never_written :
    (∀ (p : Ctk.PatientLite) (report : List Ctk.Block),
      Ctk.writeMedicalHistory p report = report) ∧
    (Ctk.transformIntakeHeadings.filter (fun h => h.2 = "MEDICAL HISTORY")).length = 0 ∧
    (Ctk.transformIntakeHeadings.filter (fun h => h.2 = "REASON FOR VISIT")).length = 1 :=
  ⟨fun _ _ => rfl, by decide, by decide⟩

/-- C4 counterexample: paragraph of two runs "aab" (fmt 0) and "b"
(fmt 1), find "ab", replace "a".  The single occurrence of "ab" in the
concatenated text "aabb" lies entirely inside the first run; the claim
requires the trailing run text "b" to be left unchanged (runs
["aa", "b"]), but the algorithm's within-run pass produces "aa"/"b" whose
concatenation contains a new boundary-spanning "ab", and the cross-run
pass then consumes the trailing "b", returning runs ["aa", ""]. -/
theorem Ctk.claim4_counterexample :
    Ctk.replaceInSection [⟨"aab".data, 0⟩, ⟨"b".data, 1⟩] "ab".data "a".data =
      .ok [⟨"aa".data, 0⟩, ⟨"".data, 1⟩] ∧
    [Ctk.Run.mk "aa".data 0, Ctk.Run.mk "".data 1] ≠
      [Ctk.Run.mk "aa".data 0, Ctk.Run.mk "b".data 1] := by
  exact ⟨by rfl, by decide⟩

/-- C4 (amended): for a paragraph of three runs in which the find string
spans the boundary between the first two runs (it is a non-empty suffix
`x` of run 0 followed by a non-empty prefix `y` of run 1), occurs in the
concatenated text exactly once (at position `|a|`, where run 0 = `a ++ x`),
and occurs inside no single run (so the within-run pass cannot rewrite or
create occurrences), `replace` substitutes the occurrence, the
replacement lands in the run where the match starts and keeps that run's
formatting (the formatting of the first matched character), and the
non-matched trailing text `b` of the last spanned run — and every later
run — is unchanged. -/
theorem Ctk.claim4_replace_spanning_runs :
    ∀ (a x y b t2 rep : List Char) (f0 f1 f2 : Nat),
      x ≠ [] → y ≠ [] →
      Ctk.strContainsSub (a ++ x) (x ++ y) = false →
      Ctk.strContainsSub (y ++ b) (x ++ y) = false →
      Ctk.strContainsSub t2 (x ++ y) = false →
      Ctk.strContainsSub
        (Ctk.concatRunText [⟨a ++ x, f0⟩, ⟨y ++ b, f1⟩, ⟨t2, f2⟩]) (x ++ y) = true →
      Ctk.matchStarts
        (Ctk.concatRunText [⟨a ++ x, f0⟩, ⟨y ++ b, f1⟩, ⟨t2, f2⟩]) (x ++ y) =
        [a.length] →
      Ctk.replaceInSection [⟨a ++ x, f0⟩, ⟨y ++ b, f1⟩, ⟨t2, f2⟩] (x ++ y) rep =
        .ok [⟨a ++ rep, f0⟩, ⟨b, f1⟩, ⟨t2, f2⟩] := by
  intro a x y b t2 rep f0 f1 f2 hx hy hc0 hc1 hc2 hct hm
  have hxlen : 1 ≤ x.length := List.length_pos.mpr hx
  have hylen : 1 ≤ y.length := List.length_pos.mpr hy
  have hfne : (x ++ y) ≠ [] := fun hcontra => hx (List.append_eq_nil.mp hcontra).1
  have hr0 : Ctk.pyReplaceList (a ++ x) (x ++ y) rep = a ++ x :=
    Ctk.pyReplaceList_eq_self hfne hc0
  have hr1 : Ctk.pyReplaceList (y ++ b) (x ++ y) rep = y ++ b :=
    Ctk.pyReplaceList_eq_self hfne hc1
  have hr2 : Ctk.pyReplaceList t2 (x ++ y) rep = t2 :=
    Ctk.pyReplaceList_eq_self hfne hc2
  have hL2 : (([(a ++ x).length, (y ++ b).length, t2.length] : List Nat).take 2).sum =
      (a ++ x).length + (y ++ b).length := rfl
  have hD2 : ([(a ++ x).length, (y ++ b).length, t2.length] : List Nat).getD 2 0 =
      t2.length := rfl
  have hL1 : (([(a ++ x).length, (y ++ b).length, t2.length] : List Nat).take 1).sum =
      (a ++ x).length := rfl
  have hD1 : ([(a ++ x).length, (y ++ b).length, t2.length] : List Nat).getD 1 0 =
      (y ++ b).length := rfl
  have hL0 : (([(a ++ x).length, (y ++ b).length, t2.length] : List Nat).take 0).sum =
      0 := rfl
  have hD0 : ([(a ++ x).length, (y ++ b).length, t2.length] : List Nat).getD 0 0 =
      (a ++ x).length := rfl
  have h2 : Ctk.processRun (x ++ y) rep
      [(a ++ x).length, (y ++ b).length, t2.length] [a.length]
      [⟨a ++ x, f0⟩, ⟨y ++ b, f1⟩, ⟨t2, f2⟩] 2 =
      .ok [⟨a ++ x, f0⟩, ⟨y ++ b, f1⟩, ⟨t2, f2⟩] := by
    refine Ctk.processRun_none (u := ⟨t2, f2⟩) rfl (Ctk.find?_singleton_none ?_)
    show decide
        ((([(a ++ x).length, (y ++ b).length, t2.length].take 2).sum ≤ a.length ∧
          a.length < ([(a ++ x).length, (y ++ b).length, t2.length].take 2).sum +
            [(a ++ x).length, (y ++ b).length, t2.length].getD 2 0)) = false
    rw [decide_eq_false_iff_not, hL2, hD2]
    intro hcontra
    rw [List.length_append] at hcontra
    omega
  have h1 : Ctk.processRun (x ++ y) rep
      [(a ++ x).length, (y ++ b).length, t2.length] [a.length]
      [⟨a ++ x, f0⟩, ⟨y ++ b, f1⟩, ⟨t2, f2⟩] 1 =
      .ok [⟨a ++ x, f0⟩, ⟨y ++ b, f1⟩, ⟨t2, f2⟩] := by
    refine Ctk.processRun_none (u := ⟨y ++ b, f1⟩) rfl (Ctk.find?_singleton_none ?_)
    show decide
        ((([(a ++ x).length, (y ++ b).length, t2.length].take 1).sum ≤ a.length ∧
          a.length < ([(a ++ x).length, (y ++ b).length, t2.length].take 1).sum +
            [(a ++ x).length, (y ++ b).length, t2.length].getD 1 0)) = false
    rw [decide_eq_false_iff_not, hL1, hD1]
    intro hcontra
    rw [List.length_append] at hcontra
    omega
  have h0 : Ctk.processRun (x ++ y) rep
      [(a ++ x).length, (y ++ b).length, t2.length] [a.length]
      [⟨a ++ x, f0⟩, ⟨y ++ b, f1⟩, ⟨t2, f2⟩] 0 =
      .ok [⟨a ++ rep, f0⟩, ⟨b, f1⟩, ⟨t2, f2⟩] := by
    have hfind0 : ([a.length] : List Nat).find? (fun m => decide
        ((([(a ++ x).length, (y ++ b).length, t2.length].take 0).sum ≤ m ∧
          m < ([(a ++ x).length, (y ++ b).length, t2.length].take 0).sum +
            [(a ++ x).length, (y ++ b).length, t2.length].getD 0 0))) = some a.length := by
      refine Ctk.find?_singleton_some ?_
      show decide
          ((([(a ++ x).length, (y ++ b).length, t2.length].take 0).sum ≤ a.length ∧
            a.length < ([(a ++ x).length, (y ++ b).length, t2.length].take 0).sum +
              [(a ++ x).length, (y ++ b).length, t2.length].getD 0 0)) = true
      rw [decide_eq_true_eq, hL0, hD0, List.length_append]
      omega
    rw [Ctk.processRun_hit (u := ⟨a ++ x, f0⟩) rfl hfind0]
    have htake : (a ++ x).take (a.length -
        (([(a ++ x).length, (y ++ b).length, t2.length] : List Nat).take 0).sum) = a := by
      rw [hL0, Nat.sub_zero]
      exact List.take_left a x
    rw [htake]
    simp only [List.set_cons_zero]
    have hov : ((a.length : Int) + (((x ++ y).length : Nat) : Int) -
        (((([(a ++ x).length, (y ++ b).length, t2.length] : List Nat).take 0).sum +
          [(a ++ x).length, (y ++ b).length, t2.length].getD 0 0 : Nat) : Int)) =
        (y.length : Int) := by
      rw [hL0, hD0]
      push_cast [List.length_append]
      omega
    rw [hov]
    have hyn : ¬((y.length : Int) ≤ 0) := by
      intro hcontra
      omega
    have hstep := Ctk.consumeOverflow_step
      (f := ([⟨a ++ rep, f0⟩, ⟨y ++ b, f1⟩, ⟨t2, f2⟩] : List Ctk.Run).length)
      hyn (show ([⟨a ++ rep, f0⟩, ⟨y ++ b, f1⟩, ⟨t2, f2⟩] :
        List Ctk.Run)[1]? = some ⟨y ++ b, f1⟩ from rfl)
    rw [hstep]
    have hdrop : (y ++ b).drop ((y.length : Int)).toNat = b := by
      rw [Int.toNat_natCast]
      exact List.drop_left y b
    simp only [hdrop, List.set_cons_succ, List.set_cons_zero]
    refine Ctk.consumeOverflow_stop ?_
    push_cast [List.length_append]
    omega
  simp only [Ctk.replaceInSection, hct, Bool.not_true, Bool.false_eq_true, if_false,
    List.map_cons, List.map_nil, hr0, hr1, hr2, hm, List.length_cons, List.length_nil]
  rw [show ((0 : Nat) + 1 + 1 + 1) = 2 + 1 from rfl]
  rw [Ctk.processRunsDown_succ h2]
  rw [show ((2 : Nat)) = 1 + 1 from rfl]
  rw [Ctk.processRunsDown_succ h1]
  rw [show ((1 : Nat)) = 0 + 1 from rfl]
  rw [Ctk.processRunsDown_succ h0]
  rfl

/-- C4 witness: the amended theorem applied at the three-run paragraph
["Ab" (fmt 7), "cd" (fmt 8), "e" (fmt 9)] with find "bc" and replacement
"Z": the result is ["AZ" (fmt 7), "d" (fmt 8), "e" (fmt 9)]. -/
theorem Ctk.claim4_witness :
    Ctk.replaceInSection
      [⟨"A".data ++ "b".data, 7⟩, ⟨"c".data ++ "d".data, 8⟩, ⟨"e".data, 9⟩]
      ("b".data ++ "c".data) "Z".data =
      .ok [⟨"A".data ++ "Z".data, 7⟩, ⟨"d".data, 8⟩, ⟨"e".data, 9⟩] :=
  Ctk.claim4_replace_spanning_runs "A".data "b".data "c".data "d".data "e".data
    "Z".data 7 8 9 (by decide) (by decide) (by decide) (by decide) (by decide)
    (by decide) (by decide)

/-- C5 counterexample: at the empty input string the claim's three-way
case split predicts the quoted string `""`, but `transform()` returns
"unspecified" via its `if not self.base` guard.  The float-parse
parameter is instantiated with a function that, like CPython `float`,
fails on the empty string. -/
theorem Ctk.claim5_counterexample :
    Ctk.durationOfPregnancyTransform (fun _ => none) ⟨"", none⟩ = "unspecified" ∧
    Ctk.durationOfPregnancySpec (fun _ => none) "" = "\"\"" ∧
    Ctk.durationOfPregnancyTransform (fun _ => none) ⟨"", none⟩ ≠
      Ctk.durationOfPregnancySpec (fun _ => none) "" := by
  refine ⟨rfl, rfl, ?_⟩
  decide

/-- C5 (amended): for every float-parse semantics and every input string,
`DurationOfPregnancy.transform` returns "unspecified" on the empty string
and otherwise agrees with the claim's rule: "<n> weeks" on a successful
numeric parse; the lowercased string verbatim when it has exactly two
whitespace-separated parts with a numeric first part and a
case-insensitive "weeks" second part; the double-quoted string otherwise. -/
theorem Ctk.claim5_duration_of_pregnancy_amended :
    ∀ (floatG : String → Option String) (st : Ctk.TState String),
      Ctk.durationOfPregnancyTransform floatG st =
        if st.base = "" then "unspecified"
        else Ctk.durationOfPregnancySpec floatG st.base := by
  intro fg st
  by_cases hb : st.base = ""
  · simp [Ctk.durationOfPregnancyTransform, hb]
  · simp only [Ctk.durationOfPregnancyTransform, Ctk.durationOfPregnancySpec, if_neg hb]
    cases hf : fg st.base with
    | some g => rfl
    | none =>
      rcases hp : Ctk.pySplitWs st.base with _ | ⟨p0, _ | ⟨p1, _ | ⟨p2, tl⟩⟩⟩
      · simp [hp]
      · simp [hp]
      · simp [hp]
      · simp [hp]

/-- C6: `DevelopmentSkill.transform` agrees with the claim's dispatch on
the shape of the base value for every base and skill phrase, including the
three examples listed in the spec. -/
theorem Ctk.claim6_development_skill :
    (∀ (b : Ctk.StrOrInt) (other : String),
      Ctk.developmentSkillTransform ⟨b, some other⟩ = Ctk.developmentSkillSpec b other) ∧
    Ctk.developmentSkillTransform ⟨.int 12, some "talked"⟩ = "talked at 12 months/years" ∧
    Ctk.developmentSkillTransform ⟨.str "not yet", some "talked"⟩ = "has not talked yet" ∧
    Ctk.developmentSkillTransform ⟨.str "early", some "walked"⟩ = "walked at an early age" := by
  refine ⟨fun b other => ?_, by decide, by decide, by decide⟩
  cases b <;> rfl

/-- C9: `transform()` is a pure method: the instance (its `base` and
`other` fields in particular) is returned unchanged, and a second call on
the returned instance produces the same result as the first call — for
every transformer and multi-transformer of the library. -/
theorem Ctk.claim9_transform_pure :
    ∀ (floatG : String → Option String) (t : Ctk.TransformerInstance),
      (Ctk.transformOnce floatG t).2 = t ∧
      (Ctk.transformOnce floatG ((Ctk.transformOnce floatG t).2)).1 =
        (Ctk.transformOnce floatG t).1 := by
  intro fg t
  have hsnd : (Ctk.transformOnce fg t).2 = t := by cases t <;> rfl
  exact ⟨hsnd, by rw [hsnd]⟩

/-- C10: the `has_iep` guard of `write_educational_history` compares the
transformer object itself with the string "yes", which is `False` for
every possible IEP value, so the prior-IEP branch is never taken and the
"has never had an Individiualized Education Program (IEP)" sentence is
always emitted. -/
theorem Ctk.claim10_educational_history_iep_guard :
    ∀ (st : Ctk.TState Ctk.IEPV) (preferredName : String),
      Ctk.eduHasIEP st = false ∧
      Ctk.iepPriorText preferredName st =
        preferredName ++ " has never had an Individiualized Education Program (IEP)." :=
  fun _ _ => ⟨rfl, rfl⟩
